import Mathlib

/-!
Verification of the training/evaluation control loop of
`src/models/code2vec/__main__.py` (omniocular).

The file shallowly embeds the metric functions (`exact_match`,
`subtoken_match`, `averaged_subtoken_match`), the epoch loop `_train`
(checkpoint-on-improvement, trial reporting/pruning, early stopping,
the hard-coded `DISALLOW_WRITE` flag) and the file-handle discipline of
`write_code_vectors`.  Labels and subtokens are identified with natural
numbers; Python floats carrying exact ratios of small integers are
modelled by `ℚ`.  A Python `ZeroDivisionError` is modelled by `Option`
(`none` = the exception escapes).
-/

/-! ## Metric engine

A label vocabulary's `itosubtokens` table is modelled as a function from
label ids to subtoken lists. -/

/-- One example's subtoken match count: the body of
`for subtoken in exp_subtokens: if subtoken in actual_subtokens: match += 1`
(membership test against the list, no deduplication). -/
def subtokenMatchCount (exp_subtokens actual_subtokens : List ℕ) : ℕ :=
  exp_subtokens.countP (fun t => actual_subtokens.contains t)

/-- The accumulation loop of `subtoken_match` (lines 309-319): running
totals `(subtokens_match, subtokens_expected_count, subtokens_actual_count)`
over `zip(expected_labels, actual_labels)`. -/
def subtokenCounts (vocab : ℕ → List ℕ) (expected actual : List ℕ) : ℕ × ℕ × ℕ :=
  (expected.zip actual).foldl
    (fun acc p =>
      let exp_subtokens := vocab p.1
      let actual_subtokens := vocab p.2
      (acc.1 + subtokenMatchCount exp_subtokens actual_subtokens,
       acc.2.1 + exp_subtokens.length,
       acc.2.2 + actual_subtokens.length))
    (0, 0, 0)

/-- `subtoken_match` (lines 308-329): corpus-level (micro) subtoken metrics
`(accuracy, precision, recall, f1)`.  Divisions take place in `ℚ`; the
claims that use this function restrict to inputs with nonzero
denominators, where `ℚ` division agrees with Python float division. -/
def subtoken_match (vocab : ℕ → List ℕ) (expected actual : List ℕ) :
    ℚ × ℚ × ℚ × ℚ :=
  let c := subtokenCounts vocab expected actual
  let subtokens_match : ℚ := c.1
  let subtokens_expected_count : ℚ := c.2.1
  let subtokens_actual_count : ℚ := c.2.2
  let accuracy := subtokens_match /
    (subtokens_expected_count + subtokens_actual_count - subtokens_match)
  let precision := subtokens_match / subtokens_actual_count
  let recl := subtokens_match / subtokens_expected_count
  let f1 := if 0 < precision + recl then
    2 * precision * recl / (precision + recl) else 0
  (accuracy, precision, recl, f1)

/-- Spec-side reformulation of the match accumulator:
`matches = Σ over examples of |expected_subtokens ∩ predicted_subtokens|`
(membership-test intersection).  Used to compare the loop of the source
against the spec's summation formula. -/
def specMatches (vocab : ℕ → List ℕ) (expected actual : List ℕ) : ℕ :=
  ((expected.zip actual).map
    (fun p => subtokenMatchCount (vocab p.1) (vocab p.2))).sum

/-- Spec-side `expected_total = Σ |expected_subtokens|`. -/
def specExpectedTotal (vocab : ℕ → List ℕ) (expected actual : List ℕ) : ℕ :=
  ((expected.zip actual).map (fun p => (vocab p.1).length)).sum

/-- Spec-side `predicted_total = Σ |predicted_subtokens|`. -/
def specPredictedTotal (vocab : ℕ → List ℕ) (expected actual : List ℕ) : ℕ :=
  ((expected.zip actual).map (fun p => (vocab p.2).length)).sum

/-- Python float division, `none` when the divisor is zero
(`ZeroDivisionError`). -/
def pydiv (a b : ℚ) : Option ℚ :=
  if b = 0 then none else some (a / b)

/-- The per-example body of `averaged_subtoken_match` (lines 282-299):
`(acc, prec, rec, f1)` for one `(expected, actual)` pair, `none` when one
of the three divisions raises `ZeroDivisionError`.  The divisions are
attempted in source order: `acc`, then `rec`, then `prec`. -/
def exampleSubtokenScores (vocab : ℕ → List ℕ) (expected actual : ℕ) :
    Option (ℚ × ℚ × ℚ × ℚ) := do
  let exp_subtokens := vocab expected
  let actual_subtokens := vocab actual
  let m : ℚ := subtokenMatchCount exp_subtokens actual_subtokens
  let acc ← pydiv m ((exp_subtokens.length : ℚ) + (actual_subtokens.length : ℚ) - m)
  let recl ← pydiv m (exp_subtokens.length : ℚ)
  let prec ← pydiv m (actual_subtokens.length : ℚ)
  let f1 := if 0 < prec + recl then 2 * prec * recl / (prec + recl) else 0
  pure (acc, prec, recl, f1)

/-- `averaged_subtoken_match` (lines 277-305): macro (per-example) subtoken
metrics, arithmetic mean of each component over the examples.  `none`
models an escaping `ZeroDivisionError` (an empty batch, where `np.average`
yields no finite value, is also mapped to `none`). -/
def averaged_subtoken_match (vocab : ℕ → List ℕ) (expected actual : List ℕ) :
    Option (ℚ × ℚ × ℚ × ℚ) := do
  let scores ← (expected.zip actual).mapM
    (fun p => exampleSubtokenScores vocab p.1 p.2)
  let n : ℚ := scores.length
  let ave_accuracy ← pydiv (scores.map (fun s => s.1)).sum n
  let ave_precision ← pydiv (scores.map (fun s => s.2.1)).sum n
  let ave_recall ← pydiv (scores.map (fun s => s.2.2.1)).sum n
  let ave_f1 ← pydiv (scores.map (fun s => s.2.2.2)).sum n
  pure (ave_accuracy, ave_precision, ave_recall, ave_f1)

/-- The multiclass exact-match rate `accuracy_score(expected, actual)`:
number of agreeing positions divided by the number of examples. -/
def accuracy_score (expected actual : List ℕ) : ℚ :=
  ((expected.zip actual).countP (fun p => p.1 = p.2) : ℚ) /
    (expected.length : ℚ)

/-- Binary-style scores of a single class `c`:
`(precision, recall, f1)` with sklearn's zero-division-to-0 convention. -/
def classScores (expected actual : List ℕ) (c : ℕ) : ℚ × ℚ × ℚ :=
  let pairs := expected.zip actual
  let tp : ℚ := pairs.countP (fun p => p.1 = c ∧ p.2 = c)
  let predicted_pos : ℚ := pairs.countP (fun p => p.2 = c)
  let actual_pos : ℚ := pairs.countP (fun p => p.1 = c)
  let precision := if predicted_pos = 0 then 0 else tp / predicted_pos
  let recl := if actual_pos = 0 then 0 else tp / actual_pos
  let f1 := if precision + recl = 0 then 0 else
    2 * precision * recl / (precision + recl)
  (precision, recl, f1)

/-- `exact_match` (lines 269-274): `(accuracy, precision, recall, f1)`.
`accuracy` is the multiclass exact-match rate; precision/recall/f1 are the
index-`[0]` entries of sklearn's `average=None` per-class arrays, i.e. the
scores of the smallest label id occurring in either sequence. -/
def exact_match (expected actual : List ℕ) : ℚ × ℚ × ℚ × ℚ :=
  let c := match (expected ++ actual).min? with | some c0 => c0 | none => 0
  let s := classScores expected actual c
  (accuracy_score expected actual, s.1, s.2.1, s.2.2)

/-! ## The training loop `_train`

Each epoch's externally computed quantities (the summed training loss and
the dev-split metrics produced by `test`) are inputs to the loop, given as
a stream indexed by epoch number.  The loop's own mutable locals
(lines 93-97) form the state.  A trial is modelled by its `should_prune`
answer per epoch step; `trial.report` calls are accumulated in the state,
as are the persistence actions of the checkpoint branch (header write,
two `write_code_vectors` calls, `torch.save`), counted in `writes`. -/

/-- Line 29: module-level constant, hard-coded. -/
def DISALLOW_WRITE : Bool := true

/-- Per-epoch external inputs of `_train`: the epoch's accumulated
`train_loss` and the dev-split `accuracy` and `f1` returned by `test`
(the remaining metrics are printed but never read by the loop's logic). -/
structure EpochMetrics where
  train_loss : ℚ
  dev_accuracy : ℚ
  dev_f1 : ℚ
deriving Repr, DecidableEq

/-- The mutable locals of `_train` (lines 93-97), plus the observable
trace: values passed to `trial.report` and the number of persistence
actions performed by the checkpoint branch. -/
structure TrainState where
  f1 : ℚ
  best_f1 : Option ℚ
  last_loss : Option ℚ
  last_accuracy : Option ℚ
  bad_count : ℕ
  reports : List ℚ
  writes : ℕ
deriving Repr, DecidableEq

/-- Initial state of one `_train` call (lines 93-97). -/
def initState : TrainState :=
  { f1 := 0, best_f1 := none, last_loss := none, last_accuracy := none,
    bad_count := 0, reports := [], writes := 0 }

/-- How `_train` terminates: `optuna.structs.TrialPruned` escaping the
loop, or a normal return of `1.0 - f1`. -/
inductive TrainOutcome
  | pruned
  | completed (objective : ℚ)
deriving Repr, DecidableEq

/-- Result of one `_train` call: final state, outcome, and the number of
epoch iterations entered. -/
structure TrainRun where
  state : TrainState
  outcome : TrainOutcome
  epochsRun : ℕ
deriving Repr, DecidableEq

/-- The guard of line 172, `best_f1 is None or best_f1 < f1`. -/
def bestImproved (s : TrainState) : Bool :=
  match s.best_f1 with
  | none => true
  | some b => decide (b < s.f1)

/-- The checkpoint branch (lines 172-193): on improvement set
`best_f1 = f1`; when no trial is present and writing is allowed, perform
the persistence actions (modelled by bumping `writes`). -/
def checkpointStep (trialAbsent : Bool) (s : TrainState) : TrainState :=
  if bestImproved s then
    let s := { s with best_f1 := some s.f1 }
    if trialAbsent && !DISALLOW_WRITE then { s with writes := s.writes + 1 }
    else s
  else s

/-- The guard of lines 195-198:
`last_loss is None or train_loss < last_loss or last_accuracy is None or
last_accuracy < dev_accuracy` (Python short-circuit evaluation folds each
`is None` test into the corresponding comparison). -/
def improvedEpoch (m : EpochMetrics) (s : TrainState) : Bool :=
  (match s.last_loss with
   | none => true
   | some l => decide (m.train_loss < l)) ||
  (match s.last_accuracy with
   | none => true
   | some a => decide (a < m.dev_accuracy))

/-- Lines 195-203: update the early-stop trackers and the bad-epoch
counter. -/
def earlyStopUpdate (m : EpochMetrics) (s : TrainState) : TrainState :=
  if improvedEpoch m s then
    { s with last_loss := some m.train_loss,
             last_accuracy := some m.dev_accuracy,
             bad_count := 0 }
  else { s with bad_count := s.bad_count + 1 }

/-- The epoch loop of `_train` (lines 105-208), by recursion on the number
of remaining epochs (`fuel = max_epoch - epoch`).  Each iteration: trial
reporting and pruning check (lines 163-167), checkpoint branch
(lines 172-193), early-stop update and break test (lines 195-208). -/
def trainFrom (trial : Option (ℕ → Bool)) (data : ℕ → EpochMetrics) :
    ℕ → ℕ → TrainState → TrainRun
  | 0, epoch, s => ⟨s, .completed (1 - s.f1), epoch⟩
  | fuel + 1, epoch, s =>
    let m := data epoch
    let s := match trial with
      | some _ => { s with reports := s.reports ++ [1 - s.f1] }
      | none => s
    let pruneNow := match trial with
      | some shouldPrune => shouldPrune epoch
      | none => false
    if pruneNow then ⟨s, .pruned, epoch + 1⟩
    else
      let s := checkpointStep trial.isNone s
      let s := earlyStopUpdate m s
      if 10 < s.bad_count then ⟨s, .completed (1 - s.f1), epoch + 1⟩
      else trainFrom trial data fuel (epoch + 1) s

/-- One `_train` call with epoch inputs `data`, running for at most
`max_epoch` epochs. -/
def trainLoop (trial : Option (ℕ → Bool)) (data : ℕ → EpochMetrics)
    (max_epoch : ℕ) : TrainRun :=
  trainFrom trial data max_epoch 0 initState

/-! ## File-handle discipline of `write_code_vectors`

The function's I/O structure (lines 369-402): when a test-result path is
given, `fr = open(test_result_file, "w")` is a plain open; the vector
file is opened by a `with` statement (closed on every exit path); the
export loop runs inside the `with` block; `fr.close()` comes after the
`with` block on the normal path only.  `failAt = some k` models a runtime
error raised at the `k`-th write of the export loop (any I/O or model
failure); the Boolean in the result records whether an exception escaped
the call. -/

/-- File-handle events of one `write_code_vectors` call. -/
inductive FAct
  | openV | closeV | openR | closeR | write
deriving Repr, DecidableEq

/-- The event trace of `write_code_vectors` for a split of `n` examples,
and whether an exception escaped.  A `with`-managed file emits its close
event on both the normal and the exceptional path; the plain
`fr.close()` of line 402 is only reached on the normal path. -/
def write_code_vectors (hasResultFile : Bool) (n : ℕ) (failAt : Option ℕ) :
    List FAct × Bool :=
  let pre := (if hasResultFile then [FAct.openR] else []) ++ [FAct.openV]
  match failAt with
  | some k =>
    if k < n then
      (pre ++ List.replicate k FAct.write ++ [FAct.closeV], true)
    else
      (pre ++ List.replicate n FAct.write ++ [FAct.closeV] ++
        (if hasResultFile then [FAct.closeR] else []), false)
  | none =>
      (pre ++ List.replicate n FAct.write ++ [FAct.closeV] ++
        (if hasResultFile then [FAct.closeR] else []), false)

/-! ## Concrete inputs used by the scenarios -/

/-- The spec's scenario vocabulary: label `A = 0` with subtokens
`[get, x]`, label `B = 1` with subtokens `[set, x]`, encoding
`get = 0`, `x = 1`, `set = 2`. -/
def sampleVocab : ℕ → List ℕ := fun i =>
  if i = 0 then [0, 1] else if i = 1 then [2, 1] else []

/-- A vocabulary whose label `0` has the duplicated subtoken list
`[x, x]` while label `1` has `[x]` (with `x = 1`). -/
def dupVocab : ℕ → List ℕ := fun i =>
  if i = 0 then [1, 1] else if i = 1 then [1] else []

/-- A vocabulary with an empty subtoken list at label `0` and `[1]` at
label `1`. -/
def gapVocab : ℕ → List ℕ := fun i => if i = 1 then [1] else []

/-- Synthetic epoch metrics with `train_loss` strictly increasing and
`dev_accuracy` strictly decreasing in the epoch number. -/
def linData : ℕ → EpochMetrics := fun k => ⟨(k : ℚ), -(k : ℚ), 0⟩

/-- Epoch metrics whose dev F1 is 1/2 at every epoch. -/
def halfData : ℕ → EpochMetrics := fun _ => ⟨1, 1, 1/2⟩

/-! ## Theorems -/

/-- The `subtoken_match` accumulation loop computes the spec's three
summations. -/
theorem subtokenCounts_foldl_aux (vocab : ℕ → List ℕ) :
    ∀ (l : List (ℕ × ℕ)) (a b c : ℕ),
      l.foldl (fun acc p =>
        (acc.1 + subtokenMatchCount (vocab p.1) (vocab p.2),
         acc.2.1 + (vocab p.1).length,
         acc.2.2 + (vocab p.2).length)) (a, b, c) =
      (a + (l.map (fun p => subtokenMatchCount (vocab p.1) (vocab p.2))).sum,
       b + (l.map (fun p => (vocab p.1).length)).sum,
       c + (l.map (fun p => (vocab p.2).length)).sum) := by
  intro l
  induction l with
  | nil => intro a b c; simp
  | cons p l ih =>
    intro a b c
    simp only [List.foldl_cons, List.map_cons, List.sum_cons, ih]
    refine Prod.ext ?_ (Prod.ext ?_ ?_) <;> simp <;> omega

theorem subtokenCounts_eq (vocab : ℕ → List ℕ) (expected actual : List ℕ) :
    subtokenCounts vocab expected actual =
      (specMatches vocab expected actual,
       specExpectedTotal vocab expected actual,
       specPredictedTotal vocab expected actual) := by
  unfold subtokenCounts specMatches specExpectedTotal specPredictedTotal
  simpa using subtokenCounts_foldl_aux vocab (expected.zip actual) 0 0 0

/-- Claim C3: for equal-length label sequences with nonzero subtoken
totals, the corpus-level subtoken metrics are
`accuracy = matches/(expected_total + predicted_total - matches)`,
`precision = matches/predicted_total`, `recall = matches/expected_total`,
`f1 = 2*precision*recall/(precision + recall)` (0 when
`precision + recall` is not positive), where `matches` sums the
membership-test match counts over the examples; and the spec's scenario
`expected = [A, A, B]`, `predicted = [A, B, B]` with `A = [get, x]`,
`B = [set, x]` yields `(5/7, 5/6, 5/6, 5/6)`. -/
theorem subtoken_match_formulas :
    (∀ (vocab : ℕ → List ℕ) (expected actual : List ℕ),
      expected.length = actual.length →
      specExpectedTotal vocab expected actual ≠ 0 →
      specPredictedTotal vocab expected actual ≠ 0 →
      subtoken_match vocab expected actual =
        ((specMatches vocab expected actual : ℚ) /
           ((specExpectedTotal vocab expected actual : ℚ) +
            (specPredictedTotal vocab expected actual : ℚ) -
            (specMatches vocab expected actual : ℚ)),
         (specMatches vocab expected actual : ℚ) /
           (specPredictedTotal vocab expected actual : ℚ),
         (specMatches vocab expected actual : ℚ) /
           (specExpectedTotal vocab expected actual : ℚ),
         if 0 < (specMatches vocab expected actual : ℚ) /
                  (specPredictedTotal vocab expected actual : ℚ) +
                (specMatches vocab expected actual : ℚ) /
                  (specExpectedTotal vocab expected actual : ℚ) then
           2 * ((specMatches vocab expected actual : ℚ) /
                  (specPredictedTotal vocab expected actual : ℚ)) *
               ((specMatches vocab expected actual : ℚ) /
                  (specExpectedTotal vocab expected actual : ℚ)) /
             ((specMatches vocab expected actual : ℚ) /
                (specPredictedTotal vocab expected actual : ℚ) +
              (specMatches vocab expected actual : ℚ) /
                (specExpectedTotal vocab expected actual : ℚ))
         else 0)) ∧
    subtoken_match sampleVocab [0, 0, 1] [0, 1, 1] =
      (5/7, 5/6, 5/6, 5/6) := by
  constructor
  · intro vocab expected actual _ _ _
    simp only [subtoken_match, subtokenCounts_eq]
  · have h : subtokenCounts sampleVocab [0, 0, 1] [0, 1, 1] = (5, 6, 6) := by
      decide
    simp only [subtoken_match, h]
    norm_num

/-- Witness for `subtoken_match_formulas`: its hypotheses hold at the
spec's scenario input. -/
theorem subtoken_match_formulas_witness :
    ([0, 0, 1] : List ℕ).length = ([0, 1, 1] : List ℕ).length ∧
    specExpectedTotal sampleVocab [0, 0, 1] [0, 1, 1] ≠ 0 ∧
    specPredictedTotal sampleVocab [0, 0, 1] [0, 1, 1] ≠ 0 ∧
    subtoken_match sampleVocab [0, 0, 1] [0, 1, 1] =
      ((specMatches sampleVocab [0, 0, 1] [0, 1, 1] : ℚ) /
         ((specExpectedTotal sampleVocab [0, 0, 1] [0, 1, 1] : ℚ) +
          (specPredictedTotal sampleVocab [0, 0, 1] [0, 1, 1] : ℚ) -
          (specMatches sampleVocab [0, 0, 1] [0, 1, 1] : ℚ)),
       (specMatches sampleVocab [0, 0, 1] [0, 1, 1] : ℚ) /
         (specPredictedTotal sampleVocab [0, 0, 1] [0, 1, 1] : ℚ),
       (specMatches sampleVocab [0, 0, 1] [0, 1, 1] : ℚ) /
         (specExpectedTotal sampleVocab [0, 0, 1] [0, 1, 1] : ℚ),
       if 0 < (specMatches sampleVocab [0, 0, 1] [0, 1, 1] : ℚ) /
                (specPredictedTotal sampleVocab [0, 0, 1] [0, 1, 1] : ℚ) +
              (specMatches sampleVocab [0, 0, 1] [0, 1, 1] : ℚ) /
                (specExpectedTotal sampleVocab [0, 0, 1] [0, 1, 1] : ℚ) then
         2 * ((specMatches sampleVocab [0, 0, 1] [0, 1, 1] : ℚ) /
                (specPredictedTotal sampleVocab [0, 0, 1] [0, 1, 1] : ℚ)) *
             ((specMatches sampleVocab [0, 0, 1] [0, 1, 1] : ℚ) /
                (specExpectedTotal sampleVocab [0, 0, 1] [0, 1, 1] : ℚ)) /
           ((specMatches sampleVocab [0, 0, 1] [0, 1, 1] : ℚ) /
              (specPredictedTotal sampleVocab [0, 0, 1] [0, 1, 1] : ℚ) +
            (specMatches sampleVocab [0, 0, 1] [0, 1, 1] : ℚ) /
              (specExpectedTotal sampleVocab [0, 0, 1] [0, 1, 1] : ℚ))
       else 0) :=
  ⟨by decide, by decide, by decide,
   subtoken_match_formulas.1 sampleVocab [0, 0, 1] [0, 1, 1]
     (by decide) (by decide) (by decide)⟩

theorem subtokenMatchCount_le_left (la lb : List ℕ) :
    subtokenMatchCount la lb ≤ la.length :=
  List.countP_le_length _

/-- With a duplicate-free expected subtoken list, the per-example match
count is also bounded by the predicted list's length. -/
theorem subtokenMatchCount_le_right (la lb : List ℕ) (h : la.Nodup) :
    subtokenMatchCount la lb ≤ lb.length := by
  have hf : (la.filter (fun t => lb.contains t)).Nodup := h.filter _
  have hsub : (la.filter (fun t => lb.contains t)) ⊆ lb := by
    intro x hx
    have hmem := List.of_mem_filter hx
    simpa using hmem
  have hlen := (hf.subperm hsub).length_le
  simpa [subtokenMatchCount, List.countP_eq_length_filter] using hlen

/-- With duplicate-free subtoken lists, the accumulated match count is
bounded by both totals. -/
theorem specMatches_le (vocab : ℕ → List ℕ) (expected actual : List ℕ)
    (hnd : ∀ i, (vocab i).Nodup) :
    specMatches vocab expected actual ≤
      min (specExpectedTotal vocab expected actual)
          (specPredictedTotal vocab expected actual) := by
  refine le_min ?_ ?_
  · unfold specMatches specExpectedTotal
    exact List.sum_le_sum (fun p _ => subtokenMatchCount_le_left _ _)
  · unfold specMatches specPredictedTotal
    exact List.sum_le_sum (fun p _ => subtokenMatchCount_le_right _ _ (hnd p.1))

/-- Counterexample to claim C6 as stated: with label `0 ↦ [x, x]` and
label `1 ↦ [x]` in the vocabulary, the batch `expected = [0]`,
`predicted = [1]` gives `matches = 2 > 1 = predicted_total`, so
`matches ≤ min(expected_total, predicted_total)` fails, and
`f1 = 4/3 > 1` although `precision + recall > 0`. -/
theorem subtoken_match_dup_counterexample :
    (subtokenCounts dupVocab [0] [1]).1 = 2 ∧
    (subtokenCounts dupVocab [0] [1]).2.1 = 2 ∧
    (subtokenCounts dupVocab [0] [1]).2.2 = 1 ∧
    ¬ ((subtokenCounts dupVocab [0] [1]).1 ≤
        min (subtokenCounts dupVocab [0] [1]).2.1
            (subtokenCounts dupVocab [0] [1]).2.2) ∧
    0 < (subtoken_match dupVocab [0] [1]).2.1 +
        (subtoken_match dupVocab [0] [1]).2.2.1 ∧
    (subtoken_match dupVocab [0] [1]).2.2.2 = 4/3 ∧
    ¬ ((subtoken_match dupVocab [0] [1]).2.2.2 ≤ 1) := by
  have h : subtokenCounts dupVocab [0] [1] = (2, 2, 1) := by decide
  refine ⟨by decide, by decide, by decide, by decide, ?_, ?_, ?_⟩ <;>
    simp only [subtoken_match, h] <;> norm_num

/-- Claim C6, amended: provided every subtoken list of the vocabulary is
duplicate-free, the accumulated `matches` of `subtoken_match` is at most
`min(expected_total, predicted_total)`, and whenever
`precision + recall > 0` the returned `f1` lies in `[0, 1]`. -/
theorem subtoken_match_bounds (vocab : ℕ → List ℕ) (expected actual : List ℕ)
    (hnd : ∀ i, (vocab i).Nodup) :
    (subtokenCounts vocab expected actual).1 ≤
      min (subtokenCounts vocab expected actual).2.1
          (subtokenCounts vocab expected actual).2.2 ∧
    (0 < (subtoken_match vocab expected actual).2.1 +
         (subtoken_match vocab expected actual).2.2.1 →
      0 ≤ (subtoken_match vocab expected actual).2.2.2 ∧
      (subtoken_match vocab expected actual).2.2.2 ≤ 1) := by
  have hc := subtokenCounts_eq vocab expected actual
  have hle := specMatches_le vocab expected actual hnd
  constructor
  · rw [hc]
    exact hle
  · intro hpr
    set M : ℚ := ((subtokenCounts vocab expected actual).1 : ℚ) with hM
    set E : ℚ := ((subtokenCounts vocab expected actual).2.1 : ℚ) with hE
    set A : ℚ := ((subtokenCounts vocab expected actual).2.2 : ℚ) with hA
    have hME : M ≤ E := by
      rw [hM, hE, hc]
      exact_mod_cast le_trans hle (min_le_left _ _)
    have hMA : M ≤ A := by
      rw [hM, hA, hc]
      exact_mod_cast le_trans hle (min_le_right _ _)
    have hM0 : 0 ≤ M := by rw [hM]; positivity
    have hE0 : 0 ≤ E := by rw [hE]; positivity
    have hA0 : 0 ≤ A := by rw [hA]; positivity
    have hprec : (subtoken_match vocab expected actual).2.1 = M / A := by
      simp [subtoken_match, hM, hA]
    have hrecl : (subtoken_match vocab expected actual).2.2.1 = M / E := by
      simp [subtoken_match, hM, hE]
    have hpr2 : 0 < M / A + M / E := by rw [← hprec, ← hrecl]; exact hpr
    have hApos : 0 < A := by
      rcases lt_or_eq_of_le hA0 with h | h
      · exact h
      · exfalso
        have hMz : M = 0 := le_antisymm (h ▸ hMA) hM0
        rw [hMz, ← h] at hpr2
        simp at hpr2
    have hEpos : 0 < E := by
      rcases lt_or_eq_of_le hE0 with h | h
      · exact h
      · exfalso
        have hMz : M = 0 := le_antisymm (h ▸ hME) hM0
        rw [hMz, ← h] at hpr2
        simp at hpr2
    have hp0 : 0 ≤ M / A := div_nonneg hM0 hA0
    have hr0 : 0 ≤ M / E := div_nonneg hM0 hE0
    have hp1 : M / A ≤ 1 := (div_le_one hApos).mpr hMA
    have hr1 : M / E ≤ 1 := (div_le_one hEpos).mpr hME
    have hf1 : (subtoken_match vocab expected actual).2.2.2 =
        2 * (M / A) * (M / E) / (M / A + M / E) := by
      simp only [subtoken_match, hM, hE, hA]
      rw [if_pos]
      exact hpr2
    rw [hf1]
    constructor
    · positivity
    · rw [div_le_one hpr2]
      nlinarith

/-- Witness for `subtoken_match_bounds`: the scenario vocabulary is
duplicate-free, so the bounds hold on the scenario batch. -/
theorem subtoken_match_bounds_witness :
    (∀ i, (sampleVocab i).Nodup) ∧
    ((subtokenCounts sampleVocab [0, 0, 1] [0, 1, 1]).1 ≤
      min (subtokenCounts sampleVocab [0, 0, 1] [0, 1, 1]).2.1
          (subtokenCounts sampleVocab [0, 0, 1] [0, 1, 1]).2.2 ∧
     (0 < (subtoken_match sampleVocab [0, 0, 1] [0, 1, 1]).2.1 +
          (subtoken_match sampleVocab [0, 0, 1] [0, 1, 1]).2.2.1 →
       0 ≤ (subtoken_match sampleVocab [0, 0, 1] [0, 1, 1]).2.2.2 ∧
       (subtoken_match sampleVocab [0, 0, 1] [0, 1, 1]).2.2.2 ≤ 1)) := by
  have hnd : ∀ i, (sampleVocab i).Nodup := by
    intro i
    unfold sampleVocab
    split
    · decide
    · split
      · decide
      · decide
  exact ⟨hnd, subtoken_match_bounds sampleVocab [0, 0, 1] [0, 1, 1] hnd⟩

/-- In the `Option` monad, a traversal fails as soon as one element
fails. -/
theorem mapM_eq_none {α β : Type} (f : α → Option β) :
    ∀ (l : List α) (x : α), x ∈ l → f x = none → l.mapM f = none := by
  intro l
  induction l with
  | nil => intro x hx; exact absurd hx (List.not_mem_nil x)
  | cons y l ih =>
    intro x hx hfx
    rw [List.mapM_cons]
    rcases List.mem_cons.mp hx with h | h
    · subst h
      rw [hfx]
      rfl
    · cases hfy : f y with
      | none => rfl
      | some b =>
        rw [ih x h hfx]
        rfl

/-- An example whose expected or predicted subtoken list is empty makes
the per-example computation raise `ZeroDivisionError`. -/
theorem exampleSubtokenScores_none (vocab : ℕ → List ℕ) (e a : ℕ)
    (h : vocab e = [] ∨ vocab a = []) :
    exampleSubtokenScores vocab e a = none := by
  rcases h with h | h
  · by_cases ha : (vocab a).length = 0
    · simp [exampleSubtokenScores, h, ha, subtokenMatchCount, pydiv]
    · simp [exampleSubtokenScores, h, subtokenMatchCount, pydiv,
        Nat.cast_eq_zero, ha]
  · by_cases he : (vocab e).length = 0
    · simp [exampleSubtokenScores, h, he, subtokenMatchCount, pydiv]
    · simp [exampleSubtokenScores, h, subtokenMatchCount, pydiv,
        Nat.cast_eq_zero, he]

/-- Counterexample to claim C7 as stated: in the batch
`expected = [1, 0]`, `predicted = [1, 1]` over a vocabulary with
`0 ↦ []`, `1 ↦ [1]`, the second example has an empty expected subtoken
list; `averaged_subtoken_match` neither scores it as zero nor excludes
it — the whole computation fails with a `ZeroDivisionError` (`none`),
while the same batch without the degenerate example yields a value. -/
theorem averaged_subtoken_empty_counterexample :
    averaged_subtoken_match gapVocab [1, 0] [1, 1] = none ∧
    averaged_subtoken_match gapVocab [1] [1] = some (1, 1, 1, 1) := by
  constructor
  · have h : exampleSubtokenScores gapVocab 0 1 = none :=
      exampleSubtokenScores_none gapVocab 0 1 (Or.inl rfl)
    have h1 : ([(1, 1), (0, 1)] : List (ℕ × ℕ)).mapM
        (fun p => exampleSubtokenScores gapVocab p.1 p.2) = none :=
      mapM_eq_none _ _ (0, 1) (by simp) h
    simp only [averaged_subtoken_match]
    rw [show ([1, 0] : List ℕ).zip [1, 1] = [(1, 1), (0, 1)] from rfl, h1]
    rfl
  · have h : exampleSubtokenScores gapVocab 1 1 = some (1, 1, 1, 1) := by
      simp [exampleSubtokenScores, gapVocab, subtokenMatchCount, pydiv]
      norm_num
    simp only [averaged_subtoken_match]
    rw [show ([1] : List ℕ).zip [1] = [(1, 1)] from rfl]
    rw [List.mapM_cons, h]
    simp [List.mapM.loop, pydiv]

/-- Claim C7, amended: an example whose expected or predicted subtoken
list is empty makes `averaged_subtoken_match` fail with a
division-by-zero error rather than return a value — it is neither scored
zero nor excluded, and no not-a-number value is produced. -/
theorem averaged_subtoken_match_raises (vocab : ℕ → List ℕ)
    (expected actual : List ℕ) (e a : ℕ)
    (hmem : (e, a) ∈ expected.zip actual)
    (hdeg : vocab e = [] ∨ vocab a = []) :
    averaged_subtoken_match vocab expected actual = none := by
  have h1 : (expected.zip actual).mapM
      (fun p => exampleSubtokenScores vocab p.1 p.2) = none :=
    mapM_eq_none _ _ (e, a) hmem (exampleSubtokenScores_none vocab e a hdeg)
  simp only [averaged_subtoken_match]
  rw [h1]
  rfl

/-- Witness for `averaged_subtoken_match_raises` at the counterexample
batch. -/
theorem averaged_subtoken_match_raises_witness :
    (((0 : ℕ), (1 : ℕ)) ∈ ([1, 0] : List ℕ).zip [1, 1] ∧
      (gapVocab 0 = [] ∨ gapVocab 1 = [])) ∧
    averaged_subtoken_match gapVocab [1, 0] [1, 1] = none :=
  ⟨⟨by decide, Or.inl rfl⟩,
   averaged_subtoken_match_raises gapVocab [1, 0] [1, 1] 0 1
     (by decide) (Or.inl rfl)⟩

/-- Claim C8: for equal-length non-empty label sequences, the exact-match
accuracy is `count(expected == predicted) / N` and lies in `[0, 1]`; the
spec's scenario `expected = [A, A, B]`, `predicted = [A, B, B]` yields
accuracy `2/3`. -/
theorem exact_match_accuracy_props :
    (∀ expected actual : List ℕ,
      expected.length = actual.length → expected ≠ [] →
      (exact_match expected actual).1 =
        ((expected.zip actual).countP (fun p => p.1 = p.2) : ℚ) /
          (expected.length : ℚ) ∧
      0 ≤ (exact_match expected actual).1 ∧
      (exact_match expected actual).1 ≤ 1) ∧
    (exact_match [0, 0, 1] [0, 1, 1]).1 = 2/3 := by
  constructor
  · intro expected actual hlen hne
    refine ⟨rfl, ?_, ?_⟩
    · have : (exact_match expected actual).1 =
          ((expected.zip actual).countP (fun p => p.1 = p.2) : ℚ) /
            (expected.length : ℚ) := rfl
      rw [this]
      positivity
    · have hN : (0 : ℚ) < (expected.length : ℚ) := by
        have : 0 < expected.length := List.length_pos.mpr hne
        exact_mod_cast this
      have hcount : (expected.zip actual).countP (fun p => p.1 = p.2) ≤
          expected.length := by
        calc (expected.zip actual).countP (fun p => p.1 = p.2) ≤
            (expected.zip actual).length := List.countP_le_length _
          _ ≤ expected.length := by
              rw [List.length_zip]
              exact min_le_left _ _
      have : (exact_match expected actual).1 =
          ((expected.zip actual).countP (fun p => p.1 = p.2) : ℚ) /
            (expected.length : ℚ) := rfl
      rw [this, div_le_one hN]
      exact_mod_cast hcount
  · have h : (([0, 0, 1] : List ℕ).zip [0, 1, 1]).countP
        (fun p => p.1 = p.2) = 2 := by decide
    have : (exact_match [0, 0, 1] [0, 1, 1]).1 =
        ((([0, 0, 1] : List ℕ).zip [0, 1, 1]).countP
          (fun p => p.1 = p.2) : ℚ) / (([0, 0, 1] : List ℕ).length : ℚ) := rfl
    rw [this, h]
    norm_num

/-- Witness for `exact_match_accuracy_props` at the scenario input. -/
theorem exact_match_accuracy_props_witness :
    (([0, 0, 1] : List ℕ).length = ([0, 1, 1] : List ℕ).length ∧
      ([0, 0, 1] : List ℕ) ≠ []) ∧
    ((exact_match [0, 0, 1] [0, 1, 1]).1 =
      ((([0, 0, 1] : List ℕ).zip [0, 1, 1]).countP
        (fun p => p.1 = p.2) : ℚ) / (([0, 0, 1] : List ℕ).length : ℚ) ∧
     0 ≤ (exact_match [0, 0, 1] [0, 1, 1]).1 ∧
     (exact_match [0, 0, 1] [0, 1, 1]).1 ≤ 1) :=
  ⟨⟨by decide, by decide⟩,
   exact_match_accuracy_props.1 [0, 0, 1] [0, 1, 1] (by decide) (by decide)⟩

/-- With `DISALLOW_WRITE` hard-coded to `true`, the checkpoint branch
reduces to the `best_f1` update: the persistence actions are dead code. -/
theorem checkpointStep_eq (t : Bool) (s : TrainState) :
    checkpointStep t s =
      if bestImproved s then { s with best_f1 := some s.f1 } else s := by
  simp [checkpointStep, DISALLOW_WRITE]

theorem checkpointStep_f1 (t : Bool) (s : TrainState) :
    (checkpointStep t s).f1 = s.f1 := by
  rw [checkpointStep_eq]
  split <;> rfl

theorem checkpointStep_writes (t : Bool) (s : TrainState) :
    (checkpointStep t s).writes = s.writes := by
  rw [checkpointStep_eq]
  split <;> rfl

theorem checkpointStep_reports (t : Bool) (s : TrainState) :
    (checkpointStep t s).reports = s.reports := by
  rw [checkpointStep_eq]
  split <;> rfl

theorem earlyStopUpdate_f1 (m : EpochMetrics) (s : TrainState) :
    (earlyStopUpdate m s).f1 = s.f1 := by
  unfold earlyStopUpdate
  split <;> rfl

theorem earlyStopUpdate_writes (m : EpochMetrics) (s : TrainState) :
    (earlyStopUpdate m s).writes = s.writes := by
  unfold earlyStopUpdate
  split <;> rfl

theorem earlyStopUpdate_reports (m : EpochMetrics) (s : TrainState) :
    (earlyStopUpdate m s).reports = s.reports := by
  unfold earlyStopUpdate
  split <;> rfl

theorem earlyStopUpdate_best (m : EpochMetrics) (s : TrainState) :
    (earlyStopUpdate m s).best_f1 = s.best_f1 := by
  unfold earlyStopUpdate
  split <;> rfl

/-- One-step unfolding of the epoch loop without a trial: checkpoint
branch, early-stop update, break test. -/
theorem trainFrom_succ_none (data : ℕ → EpochMetrics)
    (fuel epoch : ℕ) (s : TrainState) :
    trainFrom none data (fuel + 1) epoch s =
      if 10 < (earlyStopUpdate (data epoch)
          (checkpointStep true s)).bad_count then
        ⟨earlyStopUpdate (data epoch) (checkpointStep true s),
         TrainOutcome.completed
           (1 - (earlyStopUpdate (data epoch) (checkpointStep true s)).f1),
         epoch + 1⟩
      else trainFrom none data fuel (epoch + 1)
        (earlyStopUpdate (data epoch) (checkpointStep true s)) := rfl

/-- One-step unfolding of the epoch loop under a trial: report, pruning
test, then the same epoch tail. -/
theorem trainFrom_succ_some (p : ℕ → Bool) (data : ℕ → EpochMetrics)
    (fuel epoch : ℕ) (s : TrainState) :
    trainFrom (some p) data (fuel + 1) epoch s =
      if p epoch then
        ⟨{ s with reports := s.reports ++ [1 - s.f1] },
         TrainOutcome.pruned, epoch + 1⟩
      else if 10 < (earlyStopUpdate (data epoch) (checkpointStep false
            { s with reports := s.reports ++ [1 - s.f1] })).bad_count then
        ⟨earlyStopUpdate (data epoch) (checkpointStep false
            { s with reports := s.reports ++ [1 - s.f1] }),
         TrainOutcome.completed
           (1 - (earlyStopUpdate (data epoch) (checkpointStep false
              { s with reports := s.reports ++ [1 - s.f1] })).f1),
         epoch + 1⟩
      else trainFrom (some p) data fuel (epoch + 1)
        (earlyStopUpdate (data epoch) (checkpointStep false
            { s with reports := s.reports ++ [1 - s.f1] })) := rfl

/-- Loop invariants of `_train`: the local `f1` is never reassigned, the
persistence counter never moves, every completed run returns `1 - f1`,
and every reported value is `1 - f1` for the `f1` held at entry. -/
theorem trainFrom_core (trial : Option (ℕ → Bool)) (data : ℕ → EpochMetrics) :
    ∀ (fuel epoch : ℕ) (s : TrainState),
      (trainFrom trial data fuel epoch s).state.f1 = s.f1 ∧
      (trainFrom trial data fuel epoch s).state.writes = s.writes ∧
      (∀ q, (trainFrom trial data fuel epoch s).outcome =
        TrainOutcome.completed q → q = 1 - s.f1) ∧
      (∀ v ∈ (trainFrom trial data fuel epoch s).state.reports,
        v ∈ s.reports ∨ v = 1 - s.f1) := by
  intro fuel
  induction fuel with
  | zero =>
    intro epoch s
    refine ⟨rfl, rfl, ?_, ?_⟩
    · intro q hq
      cases hq
      rfl
    · intro v hv
      exact Or.inl hv
  | succ fuel ih =>
    intro epoch s
    cases trial with
    | none =>
      rw [trainFrom_succ_none]
      set s2 := earlyStopUpdate (data epoch) (checkpointStep true s) with hs2
      have h2f : s2.f1 = s.f1 := by
        rw [hs2, earlyStopUpdate_f1, checkpointStep_f1]
      have h2w : s2.writes = s.writes := by
        rw [hs2, earlyStopUpdate_writes, checkpointStep_writes]
      have h2r : s2.reports = s.reports := by
        rw [hs2, earlyStopUpdate_reports, checkpointStep_reports]
      by_cases hb : 10 < s2.bad_count
      · rw [if_pos hb]
        refine ⟨h2f, h2w, ?_, ?_⟩
        · intro q hq
          cases hq
          rw [h2f]
        · intro v hv
          exact Or.inl (h2r ▸ hv)
      · rw [if_neg hb]
        obtain ⟨i1, i2, i3, i4⟩ := ih (epoch + 1) s2
        refine ⟨i1.trans h2f, i2.trans h2w, ?_, ?_⟩
        · intro q hq
          rw [i3 q hq, h2f]
        · intro v hv
          rcases i4 v hv with h | h
          · exact Or.inl (h2r ▸ h)
          · exact Or.inr (h.trans (by rw [h2f]))
    | some p =>
      rw [trainFrom_succ_some]
      set s1 : TrainState := { s with reports := s.reports ++ [1 - s.f1] }
        with hs1
      have h1mem : ∀ v ∈ s1.reports, v ∈ s.reports ∨ v = 1 - s.f1 := by
        intro v hv
        rw [hs1] at hv
        rcases List.mem_append.mp hv with h | h
        · exact Or.inl h
        · exact Or.inr (List.mem_singleton.mp h)
      have h1f : s1.f1 = s.f1 := by rw [hs1]
      by_cases hp : p epoch
      · rw [if_pos hp]
        refine ⟨h1f, rfl, ?_, h1mem⟩
        intro q hq
        cases hq
      · rw [if_neg hp]
        set s2 := earlyStopUpdate (data epoch) (checkpointStep false s1)
          with hs2
        have h2f : s2.f1 = s.f1 := by
          rw [hs2, earlyStopUpdate_f1, checkpointStep_f1, h1f]
        have h2w : s2.writes = s.writes := by
          rw [hs2, earlyStopUpdate_writes, checkpointStep_writes, hs1]
        have h2r : s2.reports = s1.reports := by
          rw [hs2, earlyStopUpdate_reports, checkpointStep_reports]
        by_cases hb : 10 < s2.bad_count
        · rw [if_pos hb]
          refine ⟨h2f, h2w, ?_, ?_⟩
          · intro q hq
            cases hq
            rw [h2f]
          · intro v hv
            exact h1mem v (h2r ▸ hv)
        · rw [if_neg hb]
          obtain ⟨i1, i2, i3, i4⟩ := ih (epoch + 1) s2
          refine ⟨i1.trans h2f, i2.trans h2w, ?_, ?_⟩
          · intro q hq
            rw [i3 q hq, h2f]
          · intro v hv
            rcases i4 v hv with h | h
            · exact h1mem v (h2r ▸ h)
            · exact Or.inr (h.trans (by rw [h2f]))

/-- When `best_f1` already equals `f1`, the checkpoint branch is a
no-op. -/
theorem checkpointStep_id (t : Bool) (s : TrainState)
    (hbest : s.best_f1 = some s.f1) : checkpointStep t s = s := by
  rw [checkpointStep_eq, if_neg]
  simp [bestImproved, hbest]

/-- When `best_f1` is unset or equal to `f1`, the checkpoint branch
leaves `best_f1 = f1`. -/
theorem checkpointStep_best_of (t : Bool) (s : TrainState)
    (h : s.best_f1 = none ∨ s.best_f1 = some s.f1) :
    (checkpointStep t s).best_f1 = some s.f1 := by
  rcases h with h | h
  · rw [checkpointStep_eq, if_pos]
    simp [bestImproved, h]
  · rw [checkpointStep_id t s h, h]

/-- A non-improving epoch only increments the bad-epoch counter. -/
theorem earlyStopUpdate_bad (m : EpochMetrics) (s : TrainState) (L A : ℚ)
    (hll : s.last_loss = some L) (hla : s.last_accuracy = some A)
    (h1 : ¬ m.train_loss < L) (h2 : ¬ A < m.dev_accuracy) :
    earlyStopUpdate m s = { s with bad_count := s.bad_count + 1 } := by
  unfold earlyStopUpdate
  rw [if_neg]
  unfold improvedEpoch
  rw [hll, hla]
  simp [h1, h2]

/-- An improving epoch resets the counter and updates both trackers. -/
theorem earlyStopUpdate_reset (m : EpochMetrics) (s : TrainState)
    (h : improvedEpoch m s = true) :
    earlyStopUpdate m s =
      { s with last_loss := some m.train_loss,
               last_accuracy := some m.dev_accuracy,
               bad_count := 0 } := by
  unfold earlyStopUpdate
  rw [if_pos h]

/-- Once `best_f1 = some 0` and `f1 = 0`, `best_f1` never changes
again. -/
theorem trainFrom_best_stable (trial : Option (ℕ → Bool))
    (data : ℕ → EpochMetrics) :
    ∀ (fuel epoch : ℕ) (s : TrainState), s.f1 = 0 → s.best_f1 = some 0 →
      (trainFrom trial data fuel epoch s).state.best_f1 = some 0 := by
  intro fuel
  induction fuel with
  | zero => intro epoch s _ hb; exact hb
  | succ fuel ih =>
    intro epoch s hf hb
    cases trial with
    | none =>
      rw [trainFrom_succ_none]
      have hcp : checkpointStep true s = s :=
        checkpointStep_id true s (by rw [hb, hf])
      rw [hcp]
      by_cases hbc : 10 < (earlyStopUpdate (data epoch) s).bad_count
      · rw [if_pos hbc]
        rw [show (earlyStopUpdate (data epoch) s).best_f1 = s.best_f1 from
          earlyStopUpdate_best _ _, hb]
      · rw [if_neg hbc]
        exact ih (epoch + 1) _ (by rw [earlyStopUpdate_f1]; exact hf)
          (by rw [earlyStopUpdate_best]; exact hb)
    | some p =>
      rw [trainFrom_succ_some]
      have h1f : ({ s with reports := s.reports ++ [1 - s.f1] } :
          TrainState).f1 = 0 := hf
      have h1b : ({ s with reports := s.reports ++ [1 - s.f1] } :
          TrainState).best_f1 = some 0 := hb
      by_cases hp : p epoch
      · rw [if_pos hp]
        exact hb
      · rw [if_neg hp]
        have hcp : checkpointStep false
            { s with reports := s.reports ++ [1 - s.f1] } =
            { s with reports := s.reports ++ [1 - s.f1] } :=
          checkpointStep_id false _ (by rw [h1b, h1f])
        rw [hcp]
        by_cases hbc : 10 < (earlyStopUpdate (data epoch)
            { s with reports := s.reports ++ [1 - s.f1] }).bad_count
        · rw [if_pos hbc]
          rw [show (earlyStopUpdate (data epoch)
            { s with reports := s.reports ++ [1 - s.f1] }).best_f1 =
            ({ s with reports := s.reports ++ [1 - s.f1] } :
              TrainState).best_f1 from earlyStopUpdate_best _ _, h1b]
        · rw [if_neg hbc]
          exact ih (epoch + 1) _ (by rw [earlyStopUpdate_f1]; exact h1f)
            (by rw [earlyStopUpdate_best]; exact h1b)

/-- In a run of at least one epoch that is not pruned, `best_f1` ends up
`some 0`: the very first checkpoint test succeeds against the stale
`f1 = 0` and freezes `best_f1` there. -/
theorem trainFrom_best_first (trial : Option (ℕ → Bool))
    (data : ℕ → EpochMetrics) (fuel epoch : ℕ) (s : TrainState)
    (hf : s.f1 = 0) (hb : s.best_f1 = none ∨ s.best_f1 = some 0)
    (hfuel : 1 ≤ fuel)
    (hnp : (trainFrom trial data fuel epoch s).outcome ≠
      TrainOutcome.pruned) :
    (trainFrom trial data fuel epoch s).state.best_f1 = some 0 := by
  obtain ⟨f, rfl⟩ : ∃ f, fuel = f + 1 := ⟨fuel - 1, by omega⟩
  cases trial with
  | none =>
    rw [trainFrom_succ_none]
    have hcb : (checkpointStep true s).best_f1 = some 0 := by
      rw [checkpointStep_best_of true s (by rw [hf]; exact hb), hf]
    have hcf : (checkpointStep true s).f1 = 0 := by
      rw [checkpointStep_f1]; exact hf
    by_cases hbc : 10 < (earlyStopUpdate (data epoch)
        (checkpointStep true s)).bad_count
    · rw [if_pos hbc]
      rw [earlyStopUpdate_best]
      exact hcb
    · rw [if_neg hbc]
      exact trainFrom_best_stable none data f (epoch + 1) _
        (by rw [earlyStopUpdate_f1]; exact hcf)
        (by rw [earlyStopUpdate_best]; exact hcb)
  | some p =>
    rw [trainFrom_succ_some]
    by_cases hp : p epoch
    · exfalso
      apply hnp
      rw [trainFrom_succ_some, if_pos hp]
    · rw [if_neg hp]
      have h1f : ({ s with reports := s.reports ++ [1 - s.f1] } :
          TrainState).f1 = 0 := hf
      have h1b : ({ s with reports := s.reports ++ [1 - s.f1] } :
          TrainState).best_f1 = none ∨
          ({ s with reports := s.reports ++ [1 - s.f1] } :
          TrainState).best_f1 = some 0 := hb
      have hcb : (checkpointStep false
          { s with reports := s.reports ++ [1 - s.f1] }).best_f1 =
          some 0 := by
        rw [checkpointStep_best_of false _ (by rw [h1f]; exact h1b), h1f]
      have hcf : (checkpointStep false
          { s with reports := s.reports ++ [1 - s.f1] }).f1 = 0 := by
        rw [checkpointStep_f1]; exact h1f
      by_cases hbc : 10 < (earlyStopUpdate (data epoch) (checkpointStep false
          { s with reports := s.reports ++ [1 - s.f1] })).bad_count
      · rw [if_pos hbc]
        rw [earlyStopUpdate_best]
        exact hcb
      · rw [if_neg hbc]
        exact trainFrom_best_stable (some p) data f (epoch + 1) _
          (by rw [earlyStopUpdate_f1]; exact hcf)
          (by rw [earlyStopUpdate_best]; exact hcb)

/-- Claim C2: in `_train` the local `f1` stays `0.0` forever, every value
reported to a trial is exactly `1.0`, every normal return value is
exactly `1.0`, and any non-pruned run of at least one epoch exits with
`best_f1 = 0.0`, independent of the computed dev and test F1 scores. -/
theorem train_f1_constant_props (trial : Option (ℕ → Bool))
    (data : ℕ → EpochMetrics) (max_epoch : ℕ) (hme : 1 ≤ max_epoch) :
    (trainLoop trial data max_epoch).state.f1 = 0 ∧
    (∀ v ∈ (trainLoop trial data max_epoch).state.reports, v = 1) ∧
    (∀ q, (trainLoop trial data max_epoch).outcome =
      TrainOutcome.completed q → q = 1) ∧
    ((trainLoop trial data max_epoch).outcome ≠ TrainOutcome.pruned →
      (trainLoop trial data max_epoch).state.best_f1 = some 0) := by
  obtain ⟨c1, c2, c3, c4⟩ := trainFrom_core trial data max_epoch 0 initState
  refine ⟨c1, ?_, ?_, ?_⟩
  · intro v hv
    rcases c4 v hv with h | h
    · simp [initState] at h
    · rw [h]
      norm_num [initState]
  · intro q hq
    rw [c3 q hq]
    norm_num [initState]
  · intro hnp
    exact trainFrom_best_first trial data max_epoch 0 initState rfl
      (Or.inl rfl) hme hnp

/-- Witness for `train_f1_constant_props`: a plain one-epoch run. -/
theorem train_f1_constant_props_witness :
    1 ≤ 1 ∧
    ((trainLoop none halfData 1).state.f1 = 0 ∧
     (∀ v ∈ (trainLoop none halfData 1).state.reports, v = 1) ∧
     (∀ q, (trainLoop none halfData 1).outcome =
       TrainOutcome.completed q → q = 1) ∧
     ((trainLoop none halfData 1).outcome ≠ TrainOutcome.pruned →
       (trainLoop none halfData 1).state.best_f1 = some 0)) :=
  ⟨le_refl 1, train_f1_constant_props none halfData 1 (le_refl 1)⟩

/-- Claim C10: `DISALLOW_WRITE` is hard-coded `true`, so the persistence
branch of the checkpoint rule is dead: no run of the loop, trial or not,
performs any write of vectors, test results, or model checkpoint. -/
theorem train_never_writes (trial : Option (ℕ → Bool))
    (data : ℕ → EpochMetrics) (max_epoch : ℕ) :
    DISALLOW_WRITE = true ∧
    (trainLoop trial data max_epoch).state.writes = 0 :=
  ⟨rfl, (trainFrom_core trial data max_epoch 0 initState).2.1⟩

/-- Claim C1 states the intended checkpoint rule; the code diverges from
it: with the dev F1 equal to `1/2` at every epoch, a one-epoch run exits
with `best_f1 = 0`, not the maximum observed dev F1 `1/2` — line 172
compares `best_f1` against the stale local `f1` of line 93, never
against `dev_f1`. -/
theorem best_f1_ignores_dev_f1 :
    (halfData 0).dev_f1 = 1/2 ∧
    (trainLoop none halfData 1).state.best_f1 = some 0 ∧
    (trainLoop none halfData 1).state.best_f1 ≠
      some ((halfData 0).dev_f1) := by
  have hrun : (trainLoop none halfData 1).state.best_f1 = some 0 := rfl
  refine ⟨rfl, hrun, ?_⟩
  rw [hrun, show (halfData 0).dev_f1 = 1/2 from rfl]
  simp only [ne_eq, Option.some.injEq]
  norm_num

/-- Under a trial, the loop issues exactly one report per epoch
entered. -/
theorem trainFrom_reports_length (p : ℕ → Bool) (data : ℕ → EpochMetrics) :
    ∀ (fuel epoch : ℕ) (s : TrainState),
      epoch ≤ (trainFrom (some p) data fuel epoch s).epochsRun ∧
      (trainFrom (some p) data fuel epoch s).state.reports.length =
        s.reports.length +
          ((trainFrom (some p) data fuel epoch s).epochsRun - epoch) := by
  intro fuel
  induction fuel with
  | zero =>
    intro epoch s
    refine ⟨le_refl _, ?_⟩
    show s.reports.length = s.reports.length + (epoch - epoch)
    omega
  | succ fuel ih =>
    intro epoch s
    rw [trainFrom_succ_some]
    by_cases hp : p epoch
    · rw [if_pos hp]
      refine ⟨Nat.le_succ _, ?_⟩
      simp
    · rw [if_neg hp]
      set s2 := earlyStopUpdate (data epoch) (checkpointStep false
        { s with reports := s.reports ++ [1 - s.f1] }) with hs2
      have h2r : s2.reports.length = s.reports.length + 1 := by
        rw [hs2, earlyStopUpdate_reports, checkpointStep_reports]
        simp
      by_cases hb : 10 < s2.bad_count
      · rw [if_pos hb]
        refine ⟨Nat.le_succ _, ?_⟩
        simp [h2r]
      · rw [if_neg hb]
        obtain ⟨i1, i2⟩ := ih (epoch + 1) s2
        refine ⟨le_trans (Nat.le_succ _) i1, ?_⟩
        rw [i2, h2r]
        omega

/-- Claim C5: with a trial present the loop reports `1 - f1` once per
epoch step; a pruning signal is the distinguished outcome
`TrainOutcome.pruned`, different from every completed outcome; and with
a pruner that always prunes, the loop stops after exactly one epoch of
reporting with the pruned outcome. -/
theorem trial_pruning_props :
    (∀ (p : ℕ → Bool) (data : ℕ → EpochMetrics) (max_epoch : ℕ),
      (trainLoop (some p) data max_epoch).state.reports.length =
        (trainLoop (some p) data max_epoch).epochsRun ∧
      (∀ v ∈ (trainLoop (some p) data max_epoch).state.reports, v = 1)) ∧
    (∀ q, TrainOutcome.pruned ≠ TrainOutcome.completed q) ∧
    (∀ (data : ℕ → EpochMetrics) (max_epoch : ℕ), 1 ≤ max_epoch →
      (trainLoop (some (fun _ => true)) data max_epoch).outcome =
        TrainOutcome.pruned ∧
      (trainLoop (some (fun _ => true)) data max_epoch).epochsRun = 1 ∧
      (trainLoop (some (fun _ => true)) data max_epoch).state.reports =
        [1]) := by
  refine ⟨?_, ?_, ?_⟩
  · intro p data max_epoch
    obtain ⟨h1, h2⟩ := trainFrom_reports_length p data max_epoch 0 initState
    constructor
    · unfold trainLoop
      rw [h2]
      simp [initState]
    · intro v hv
      rcases (trainFrom_core (some p) data max_epoch 0 initState).2.2.2 v hv
        with h | h
      · simp [initState] at h
      · rw [h]
        norm_num [initState]
  · intro q hq
    cases hq
  · intro data max_epoch hme
    obtain ⟨f, rfl⟩ : ∃ f, max_epoch = f + 1 := ⟨max_epoch - 1, by omega⟩
    unfold trainLoop
    rw [trainFrom_succ_some, if_pos rfl]
    refine ⟨rfl, rfl, ?_⟩
    show ([] : List ℚ) ++ [1 - (0 : ℚ)] = [1]
    norm_num

/-- Witness for `trial_pruning_props`: an always-pruning one-epoch
run. -/
theorem trial_pruning_props_witness :
    1 ≤ 1 ∧
    ((trainLoop (some (fun _ => true)) halfData 1).outcome =
      TrainOutcome.pruned ∧
     (trainLoop (some (fun _ => true)) halfData 1).epochsRun = 1 ∧
     (trainLoop (some (fun _ => true)) halfData 1).state.reports = [1]) :=
  ⟨le_refl 1, trial_pruning_props.2.2 halfData 1 (le_refl 1)⟩

/-- A strict increase over 11 consecutive steps dominates the start
value. -/
theorem chain_increasing (f : ℕ → ℚ) (h : ∀ k, k < 11 → f k < f (k + 1)) :
    ∀ k, 1 ≤ k → k ≤ 11 → f 0 < f k := by
  intro k
  induction k with
  | zero => intro h1 _; exact absurd h1 (by omega)
  | succ k ihk =>
    intro _ hk
    rcases Nat.eq_zero_or_pos k with h0 | h1
    · subst h0
      exact h 0 (by omega)
    · exact lt_trans (ihk h1 (by omega)) (h k (by omega))

/-- A strict decrease over 11 consecutive steps stays below the start
value. -/
theorem chain_decreasing (f : ℕ → ℚ) (h : ∀ k, k < 11 → f (k + 1) < f k) :
    ∀ k, 1 ≤ k → k ≤ 11 → f k < f 0 := by
  intro k
  induction k with
  | zero => intro h1 _; exact absurd h1 (by omega)
  | succ k ihk =>
    intro _ hk
    rcases Nat.eq_zero_or_pos k with h0 | h1
    · subst h0
      exact h 0 (by omega)
    · exact lt_trans (h k (by omega)) (ihk h1 (by omega))

/-- A run of `j + 1` consecutive non-improving epochs from a state whose
counter is at `10 - j` ends the loop with `bad_count = 11` after exactly
those epochs. -/
theorem trainFrom_bad_streak (data : ℕ → EpochMetrics) (L A : ℚ) :
    ∀ (j fuel epoch : ℕ) (s : TrainState),
      s.best_f1 = some s.f1 →
      s.last_loss = some L →
      s.last_accuracy = some A →
      s.bad_count + (j + 1) = 11 →
      j + 1 ≤ fuel →
      (∀ i, i ≤ j → ¬ (data (epoch + i)).train_loss < L ∧
        ¬ A < (data (epoch + i)).dev_accuracy) →
      trainFrom none data fuel epoch s =
        ⟨{ s with bad_count := 11 }, TrainOutcome.completed (1 - s.f1),
         epoch + (j + 1)⟩ := by
  intro j
  induction j with
  | zero =>
    intro fuel epoch s hbest hll hla hbad hfuel hstreak
    obtain ⟨f, rfl⟩ : ∃ f, fuel = f + 1 := ⟨fuel - 1, by omega⟩
    rw [trainFrom_succ_none]
    have h0 := hstreak 0 (by omega)
    rw [Nat.add_zero] at h0
    rw [checkpointStep_id true s hbest,
      earlyStopUpdate_bad (data epoch) s L A hll hla h0.1 h0.2]
    have hb11 : s.bad_count + 1 = 11 := by omega
    rw [hb11]
    have hlt : 10 < ({ s with bad_count := 11 } : TrainState).bad_count := by
      show (10 : ℕ) < 11
      omega
    rw [if_pos hlt]
  | succ j ih =>
    intro fuel epoch s hbest hll hla hbad hfuel hstreak
    obtain ⟨f, rfl⟩ : ∃ f, fuel = f + 1 := ⟨fuel - 1, by omega⟩
    rw [trainFrom_succ_none]
    have h0 := hstreak 0 (by omega)
    rw [Nat.add_zero] at h0
    rw [checkpointStep_id true s hbest,
      earlyStopUpdate_bad (data epoch) s L A hll hla h0.1 h0.2]
    have hnlt : ¬ 10 < ({ s with bad_count := s.bad_count + 1 } :
        TrainState).bad_count := by
      show ¬ 10 < s.bad_count + 1
      omega
    rw [if_neg hnlt]
    have hrec := ih f (epoch + 1) { s with bad_count := s.bad_count + 1 }
      hbest hll hla (by show s.bad_count + 1 + (j + 1) = 11; omega)
      (by omega)
      (by
        intro i hi
        have := hstreak (i + 1) (by omega)
        rwa [show epoch + (i + 1) = epoch + 1 + i by omega] at this)
    rw [hrec]
    have hep : epoch + 1 + (j + 1) = epoch + (j + 1 + 1) := by omega
    rw [hep]

/-- Claim C4: the early-stop rule resets the counter and updates both
trackers exactly when the loss is unset/improved or the accuracy is
unset/improved, increments it otherwise, and the loop stops once the
counter exceeds 10; in particular, with the training loss strictly
increasing and the dev accuracy strictly decreasing over epochs 1..11
(after the baseline epoch), the loop terminates at epoch 11 with
`bad_epoch_count = 11` and never enters a 12th bad epoch. -/
theorem early_stop_rule :
    (∀ (m : EpochMetrics) (s : TrainState),
      (improvedEpoch m s = true ↔
        (s.last_loss = none ∨
         (∃ l, s.last_loss = some l ∧ m.train_loss < l) ∨
         s.last_accuracy = none ∨
         (∃ a, s.last_accuracy = some a ∧ a < m.dev_accuracy))) ∧
      (improvedEpoch m s = true →
        (earlyStopUpdate m s).bad_count = 0 ∧
        (earlyStopUpdate m s).last_loss = some m.train_loss ∧
        (earlyStopUpdate m s).last_accuracy = some m.dev_accuracy) ∧
      (improvedEpoch m s = false →
        (earlyStopUpdate m s).bad_count = s.bad_count + 1 ∧
        (earlyStopUpdate m s).last_loss = s.last_loss ∧
        (earlyStopUpdate m s).last_accuracy = s.last_accuracy)) ∧
    (∀ (data : ℕ → EpochMetrics) (max_epoch : ℕ),
      12 ≤ max_epoch →
      (∀ k, k < 11 → (data k).train_loss < (data (k + 1)).train_loss) →
      (∀ k, k < 11 → (data (k + 1)).dev_accuracy < (data k).dev_accuracy) →
      (trainLoop none data max_epoch).epochsRun = 12 ∧
      (trainLoop none data max_epoch).state.bad_count = 11 ∧
      (trainLoop none data max_epoch).outcome =
        TrainOutcome.completed 1) := by
  constructor
  · intro m s
    refine ⟨?_, ?_, ?_⟩
    · unfold improvedEpoch
      cases hll : s.last_loss with
      | none => simp
      | some l =>
        cases hla : s.last_accuracy with
        | none => simp
        | some a => simp
    · intro h
      rw [earlyStopUpdate_reset m s h]
      exact ⟨rfl, rfl, rfl⟩
    · intro h
      unfold earlyStopUpdate
      rw [h]
      simp
  · intro data max_epoch hme hinc hdec
    obtain ⟨f, rfl⟩ : ∃ f, max_epoch = f + 1 := ⟨max_epoch - 1, by omega⟩
    unfold trainLoop
    rw [trainFrom_succ_none]
    have hcp : checkpointStep true initState =
        { initState with best_f1 := some initState.f1 } := by
      rw [checkpointStep_eq, if_pos]
      rfl
    rw [hcp]
    have himp : improvedEpoch (data 0)
        { initState with best_f1 := some initState.f1 } = true := rfl
    rw [earlyStopUpdate_reset _ _ himp]
    set s1 : TrainState :=
      { { initState with best_f1 := some initState.f1 } with
        last_loss := some (data 0).train_loss,
        last_accuracy := some (data 0).dev_accuracy,
        bad_count := 0 } with hs1
    have hnlt : ¬ 10 < s1.bad_count := by
      rw [hs1]
      show ¬ 10 < 0
      omega
    rw [if_neg hnlt]
    have hstreak : ∀ i, i ≤ 10 →
        ¬ (data (1 + i)).train_loss < (data 0).train_loss ∧
        ¬ (data 0).dev_accuracy < (data (1 + i)).dev_accuracy := by
      intro i hi
      constructor
      · exact lt_asymm (chain_increasing (fun k => (data k).train_loss)
          hinc (1 + i) (by omega) (by omega))
      · exact lt_asymm (chain_decreasing (fun k => (data k).dev_accuracy)
          hdec (1 + i) (by omega) (by omega))
    have hrec := trainFrom_bad_streak data (data 0).train_loss
      (data 0).dev_accuracy 10 f 1 s1 rfl rfl rfl
      (by rw [hs1]) (by omega) hstreak
    rw [hrec]
    refine ⟨rfl, rfl, ?_⟩
    show TrainOutcome.completed (1 - (0 : ℚ)) = TrainOutcome.completed 1
    norm_num

/-- Witness for `early_stop_rule`: the synthetic strictly-worsening
metrics terminate a 20-epoch run at epoch 11. -/
theorem early_stop_rule_witness :
    (12 ≤ 20 ∧
     (∀ k, k < 11 →
       (linData k).train_loss < (linData (k + 1)).train_loss) ∧
     (∀ k, k < 11 →
       (linData (k + 1)).dev_accuracy < (linData k).dev_accuracy)) ∧
    ((trainLoop none linData 20).epochsRun = 12 ∧
     (trainLoop none linData 20).state.bad_count = 11 ∧
     (trainLoop none linData 20).outcome = TrainOutcome.completed 1) := by
  have hinc : ∀ k, k < 11 →
      (linData k).train_loss < (linData (k + 1)).train_loss := by
    intro k hk
    show (k : ℚ) < ((k + 1 : ℕ) : ℚ)
    exact_mod_cast Nat.lt_succ_self k
  have hdec : ∀ k, k < 11 →
      (linData (k + 1)).dev_accuracy < (linData k).dev_accuracy := by
    intro k hk
    show -((k + 1 : ℕ) : ℚ) < -(k : ℚ)
    have h : (k : ℚ) < ((k + 1 : ℕ) : ℚ) := by
      exact_mod_cast Nat.lt_succ_self k
    linarith
  exact ⟨⟨by omega, hinc, hdec⟩,
    early_stop_rule.2 linData 20 (by omega) hinc hdec⟩

/-- Counterexample to claim C9 as stated: exporting one example with a
test-result file requested, with an exception raised at the first write,
leaves the test-result handle open (opened once, never closed), while
the `with`-managed vector handle is closed. -/
theorem write_code_vectors_leak_counterexample :
    (write_code_vectors true 1 (some 0)).2 = true ∧
    (write_code_vectors true 1 (some 0)).1.count FAct.openR = 1 ∧
    (write_code_vectors true 1 (some 0)).1.count FAct.closeR = 0 ∧
    (write_code_vectors true 1 (some 0)).1.count FAct.openV = 1 ∧
    (write_code_vectors true 1 (some 0)).1.count FAct.closeV = 1 := by
  decide

/-- Claim C9, amended: only the vector file is opened with scoped
acquisition — it is closed on every exit path, exception or not; the
test-result file is only closed when no exception escapes the export. -/
theorem write_code_vectors_closure (hasResultFile : Bool) (n : ℕ)
    (failAt : Option ℕ) :
    (write_code_vectors hasResultFile n failAt).1.count FAct.closeV =
      (write_code_vectors hasResultFile n failAt).1.count FAct.openV ∧
    ((write_code_vectors hasResultFile n failAt).2 = false →
      (write_code_vectors hasResultFile n failAt).1.count FAct.closeR =
        (write_code_vectors hasResultFile n failAt).1.count FAct.openR) := by
  cases failAt with
  | none =>
    cases hasResultFile <;>
      simp [write_code_vectors, List.count_append, List.count_replicate,
        List.count_cons, List.count_nil]
  | some k =>
    by_cases hk : k < n
    · cases hasResultFile <;>
        simp [write_code_vectors, hk, List.count_append,
          List.count_replicate, List.count_cons, List.count_nil]
    · cases hasResultFile <;>
        simp [write_code_vectors, hk, List.count_append,
          List.count_replicate, List.count_cons, List.count_nil]

/-- Witness for `write_code_vectors_closure`: a clean two-example export
with a result file closes both handles. -/
theorem write_code_vectors_closure_witness :
    ((write_code_vectors true 2 none).1.count FAct.closeV =
      (write_code_vectors true 2 none).1.count FAct.openV ∧
     ((write_code_vectors true 2 none).2 = false →
       (write_code_vectors true 2 none).1.count FAct.closeR =
         (write_code_vectors true 2 none).1.count FAct.openR)) ∧
    (write_code_vectors true 2 none).2 = false :=
  ⟨write_code_vectors_closure true 2 none, by decide⟩
